import Mathlib

/-!
Shallow embedding of the shared quantum-state logic of the repository
(the `quantum.js` core module and the App-level copy of its trajectory
builder).  The JavaScript code is stringly typed: states and gates are
plain strings, an absent gate slot is `null`/`undefined`.  We mirror that
with `String` for states and gate names and `Option String` for a gate
slot.  `Math.random()` is modelled as an explicit randomness source: a
stream of rationals together with a cursor, so that "consumes one draw"
is the statement that the cursor advances by one.
-/

namespace QuantumDesign

/-- Randomness source: a stream of draws (each meant to lie in `[0,1)`,
as `Math.random()` does) plus the index of the next draw. -/
structure RandState where
  stream : Nat → ℚ
  idx : Nat

/-- One call to `Math.random()`: returns the current draw and advances
the cursor. -/
def draw (rs : RandState) : ℚ × RandState :=
  (rs.stream rs.idx, ⟨rs.stream, rs.idx + 1⟩)

/-- The nested gate-then-state lookup table `gateTable` of `quantum.js`. -/
def gateTable : List (String × List (String × String)) :=
  [("X", [("ZERO", "ONE"), ("ONE", "ZERO"), ("PLUS", "PLUS"), ("MINUS", "MINUS")]),
   ("H", [("ZERO", "PLUS"), ("ONE", "MINUS"), ("PLUS", "ZERO"), ("MINUS", "ONE")]),
   ("Z", [("ZERO", "ZERO"), ("ONE", "ONE"), ("PLUS", "MINUS"), ("MINUS", "PLUS")]),
   ("NOISE", [("ZERO", "DECOHERED"), ("ONE", "DECOHERED"), ("PLUS", "DECOHERED"),
              ("MINUS", "DECOHERED")])]

/-- `applyGate(state, gate)` from `quantum.js`: absent gate is a no-op,
`DECOHERED` short-circuits, otherwise `gateTable[gate]?.[state] ?? state`. -/
def applyGate (state : String) (gate : Option String) : String :=
  match gate with
  | none => state
  | some g =>
    if state = "DECOHERED" then "DECOHERED"
    else (((gateTable.lookup g).bind fun row => row.lookup state).getD state)

/-- The body of the `for (const gate of gates)` loop of `buildStepStates`:
the list of states pushed after the seed. -/
def stepStatesFrom (s : String) : List (Option String) → List String
  | [] => []
  | g :: gs =>
    let c := applyGate s g
    c :: stepStatesFrom c gs

/-- `buildStepStates(initialState, gates)` from `quantum.js`: the seed is
normalized to `ZERO` unless it is exactly `ONE`, then each gate is applied
in turn and every intermediate state is recorded. -/
def buildStepStates (initialState : String) (gates : List (Option String)) : List String :=
  let s0 := if initialState = "ONE" then "ONE" else "ZERO"
  s0 :: stepStatesFrom s0 gates

/-- `measureState(state)` from `quantum.js`, with the `Math.random()` call
made explicit: basis states and `DECOHERED` answer without drawing,
`PLUS`/`MINUS` consume one draw and compare it with `0.5`, anything else
falls through to `blue`. -/
def measureState (state : String) (rs : RandState) : String × RandState :=
  if state = "ZERO" then ("blue", rs)
  else if state = "ONE" then ("red", rs)
  else if state = "PLUS" ∨ state = "MINUS" then
    let (q, rs') := draw rs
    ((if q < 1/2 then "blue" else "red"), rs')
  else if state = "DECOHERED" then ("yellow", rs)
  else ("blue", rs)

/-- The pool `availableGates` of `quantum.js`: `['X', 'H', 'Z', null, null]`
(the two `null`s are empty slots, over-weighting "no gate"). -/
def availableGates : List (Option String) :=
  [some "X", some "H", some "Z", none, none]

/-- `availableGates[Math.floor(q * availableGates.length)]`: a negative or
out-of-range index yields `undefined` in JavaScript, i.e. an absent gate. -/
def pickGate (q : ℚ) : Option String :=
  let i := ⌊q * 5⌋
  if i < 0 then none else (availableGates.get? i.toNat).getD none

/-- `generateRandomCircuit(numGates)` from `quantum.js`: one draw per slot. -/
def generateRandomCircuit (numGates : Nat) (rs : RandState) :
    List (Option String) × RandState :=
  match numGates with
  | 0 => ([], rs)
  | n + 1 =>
    let (q, rs₁) := draw rs
    let (rest, rs₂) := generateRandomCircuit n rs₁
    (pickGate q :: rest, rs₂)

/-- The per-cell record assembled by `buildColumnData` in `quantum.js`:
`{ gates, states, finalState, measurement }`. -/
structure ColumnData where
  gates : List (Option String)
  states : List String
  finalState : String
  measurement : String
deriving DecidableEq

/-- `buildColumnData(gates)` from `quantum.js`: states from seed `ZERO`,
`finalState = states[states.length - 1]`, then one measurement. -/
def buildColumnData (gates : List (Option String)) (rs : RandState) :
    ColumnData × RandState :=
  let states := buildStepStates "ZERO" gates
  let finalState := states.getLastD ""
  let (measurement, rs') := measureState finalState rs
  (⟨gates, states, finalState, measurement⟩, rs')

/-- The inner `for (let col = 0; col < size; col++)` loop of
`generateFixtureGrid`: builds one row of `cols` cells. -/
def fixtureRow (cols numGates : Nat) (rs : RandState) :
    List ColumnData × RandState :=
  match cols with
  | 0 => ([], rs)
  | c + 1 =>
    let (gates, rs₁) := generateRandomCircuit numGates rs
    let (cell, rs₂) := buildColumnData gates rs₁
    let (rest, rs₃) := fixtureRow c numGates rs₂
    (cell :: rest, rs₃)

/-- The outer row loop of `generateFixtureGrid(size, numGates)` from
`quantum.js`: `size` rows of `size` cells each. -/
def fixtureRows (rows size numGates : Nat) (rs : RandState) :
    List (List ColumnData) × RandState :=
  match rows with
  | 0 => ([], rs)
  | r + 1 =>
    let (row, rs₁) := fixtureRow size numGates rs
    let (rest, rs₂) := fixtureRows r size numGates rs₁
    (row :: rest, rs₂)

/-- `generateFixtureGrid(size = 5, numGates = 4)` from `quantum.js`. -/
def generateFixtureGrid (size numGates : Nat) (rs : RandState) :
    List (List ColumnData) × RandState :=
  fixtureRows size size numGates rs

/-- The `validGates` map of `quantum.js`: `{ X: 'X', H: 'H', Z: 'Z', N: 'NOISE' }`. -/
def validGates (c : Char) : Option String :=
  if c = 'X' then some "X"
  else if c = 'H' then some "H"
  else if c = 'Z' then some "Z"
  else if c = 'N' then some "NOISE"
  else none

/-- The character loop of `parseGateString`: collect mapped gates while
fewer than `numGates` have been found, silently dropping everything else. -/
def parseLoop (numGates : Nat) (gates : List (Option String)) :
    List Char → List (Option String)
  | [] => gates
  | c :: cs =>
    match validGates c with
    | some g =>
      if gates.length < numGates then parseLoop numGates (gates ++ [some g]) cs
      else parseLoop numGates gates cs
    | none => parseLoop numGates gates cs

/-- `parseGateString(str, numGates)` from `quantum.js`: scan the
upper-cased characters, then pad with `null` up to `numGates`.
`(str || '').toUpperCase()` is modelled as per-character upper-casing. -/
def parseGateString (str : String) (numGates : Nat) : List (Option String) :=
  let gates := parseLoop numGates [] (str.toList.map Char.toUpper)
  gates ++ List.replicate (numGates - gates.length) none

/-- The character content of `gatesToString(gates)`:
`gates.filter(Boolean)` keeps exactly the present, non-empty gate strings
(`null`, `undefined` and `''` are the falsy values that can occur here),
each kept gate renders as itself except `NOISE`, which renders as `N`, and
`join('')` concatenates the rendered characters. -/
def gatesToChars (gates : List (Option String)) : List Char :=
  ((((gates.filterMap id).filter fun g => g ≠ "").map
    fun g => if g = "NOISE" then "N" else g).map String.toList).flatten

/-- `gatesToString(gates)` from `quantum.js`:
`gates.filter(Boolean).map(g => g === 'NOISE' ? 'N' : g).join('')`. -/
def gatesToString (gates : List (Option String)) : String :=
  String.mk (gatesToChars gates)

/-- `applyGate` as redefined inline in the App component (part_003); the
table literal there is identical to the one in `quantum.js`. -/
def gateTableApp : List (String × List (String × String)) :=
  [("X", [("ZERO", "ONE"), ("ONE", "ZERO"), ("PLUS", "PLUS"), ("MINUS", "MINUS")]),
   ("H", [("ZERO", "PLUS"), ("ONE", "MINUS"), ("PLUS", "ZERO"), ("MINUS", "ONE")]),
   ("Z", [("ZERO", "ZERO"), ("ONE", "ONE"), ("PLUS", "MINUS"), ("MINUS", "PLUS")]),
   ("NOISE", [("ZERO", "DECOHERED"), ("ONE", "DECOHERED"), ("PLUS", "DECOHERED"),
              ("MINUS", "DECOHERED")])]

/-- The App component's own `applyGate(state, gate)`. -/
def applyGateApp (state : String) (gate : Option String) : String :=
  match gate with
  | none => state
  | some g =>
    if state = "DECOHERED" then "DECOHERED"
    else (((gateTableApp.lookup g).bind fun row => row.lookup state).getD state)

/-- The App component's trajectory loop body (states pushed after the seed). -/
def stepStatesFromApp (s : String) : List (Option String) → List String
  | [] => []
  | g :: gs =>
    let c := applyGateApp s g
    c :: stepStatesFromApp c gs

/-- The value of `current` after the App component's loop. -/
def finalStateApp (s : String) : List (Option String) → String
  | [] => s
  | g :: gs => finalStateApp (applyGateApp s g) gs

/-- The App component's `buildStepStates(initialState, gates)` (part_003):
same loop as the core one, then `states.push(current)` once more — the
detector position repeats the final state. -/
def buildStepStatesApp (initialState : String) (gates : List (Option String)) :
    List String :=
  let s0 := if initialState = "ONE" then "ONE" else "ZERO"
  (s0 :: stepStatesFromApp s0 gates) ++ [finalStateApp s0 gates]

end QuantumDesign

namespace QuantumDesign

theorem applyGate_decohered (g : Option String) :
    applyGate "DECOHERED" g = "DECOHERED" := by
  cases g with
  | none => rfl
  | some g => simp [applyGate]

theorem stepStatesFrom_length (gates : List (Option String)) :
    ∀ s, (stepStatesFrom s gates).length = gates.length := by
  induction gates with
  | nil => intro s; rfl
  | cons g gs ih => intro s; simp [stepStatesFrom, ih]

theorem buildStepStates_length (s0 : String) (gates : List (Option String)) :
    (buildStepStates s0 gates).length = gates.length + 1 := by
  simp [buildStepStates, stepStatesFrom_length]

theorem stepStatesFrom_decohered (gates : List (Option String)) :
    stepStatesFrom "DECOHERED" gates = List.replicate gates.length "DECOHERED" := by
  induction gates with
  | nil => rfl
  | cons g gs ih =>
    simp [stepStatesFrom, applyGate_decohered, ih, List.replicate_succ]

theorem traj_mono (gates : List (Option String)) :
    ∀ (s : String) (i j : Nat), i ≤ j →
      j < (s :: stepStatesFrom s gates).length →
      (s :: stepStatesFrom s gates).getD i "" = "DECOHERED" →
      (s :: stepStatesFrom s gates).getD j "" = "DECOHERED" := by
  induction gates with
  | nil =>
    intro s i j hij hj hi
    simp [stepStatesFrom] at hj
    subst hj
    interval_cases i
    exact hi
  | cons g gs ih =>
    intro s i j hij hj hi
    match i, j with
    | 0, 0 => exact hi
    | 0, j + 1 =>
      have hs : s = "DECOHERED" := by simpa using hi
      subst hs
      have hc : applyGate "DECOHERED" g = "DECOHERED" := applyGate_decohered g
      simp only [stepStatesFrom, hc, List.getD_cons_succ]
      have hj' : j < ("DECOHERED" :: stepStatesFrom "DECOHERED" gs).length := by
        simp only [stepStatesFrom, hc] at hj
        simpa using Nat.lt_of_succ_lt_succ hj
      exact ih "DECOHERED" 0 j (Nat.zero_le j) hj' (by simp)
    | i + 1, j + 1 =>
      simp only [stepStatesFrom, List.getD_cons_succ] at hi ⊢
      have hj' : j < (applyGate s g :: stepStatesFrom (applyGate s g) gs).length := by
        simp only [stepStatesFrom] at hj
        simpa using Nat.lt_of_succ_lt_succ hj
      exact ih (applyGate s g) i j (Nat.le_of_succ_le_succ hij) hj' hi

theorem traj_step (gates : List (Option String)) :
    ∀ (s : String) (i : Nat), i < gates.length →
      (s :: stepStatesFrom s gates).getD (i + 1) "" =
        applyGate ((s :: stepStatesFrom s gates).getD i "") (gates.getD i none) := by
  induction gates with
  | nil => intro s i hi; simp at hi
  | cons g gs ih =>
    intro s i hi
    match i with
    | 0 => simp [stepStatesFrom]
    | i + 1 =>
      simp only [stepStatesFrom, List.getD_cons_succ]
      exact ih (applyGate s g) i (by simpa using Nat.lt_of_succ_lt_succ hi)

end QuantumDesign

namespace QuantumDesign

/-- Claim C1: for every gate `g` in `{X, H, Z}` and every state `s` in
`{ZERO, ONE, PLUS, MINUS}`, applying `g` twice returns `s`. -/
theorem involution_law (g s : String)
    (hg : g ∈ ["X", "H", "Z"]) (hs : s ∈ ["ZERO", "ONE", "PLUS", "MINUS"]) :
    applyGate (applyGate s (some g)) (some g) = s := by
  fin_cases hg <;> fin_cases hs <;> rfl

theorem involution_law_witness :
    ("H" ∈ ["X", "H", "Z"]) ∧ ("PLUS" ∈ ["ZERO", "ONE", "PLUS", "MINUS"]) ∧
      applyGate (applyGate "PLUS" (some "H")) (some "H") = "PLUS" :=
  ⟨by decide, by decide, involution_law "H" "PLUS" (by decide) (by decide)⟩

/-- Claim C2: `DECOHERED` is absorbing under every gate slot (absent or any
string), and in every trajectory built by `buildStepStates`, once element `i`
is `DECOHERED`, every later element `j` is `DECOHERED` as well. -/
theorem decohered_absorbing (g : Option String) (s0 : String)
    (gates : List (Option String)) (i j : Nat) (hij : i < j)
    (hj : j < (buildStepStates s0 gates).length)
    (hi : (buildStepStates s0 gates).getD i "" = "DECOHERED") :
    applyGate "DECOHERED" g = "DECOHERED" ∧
      (buildStepStates s0 gates).getD j "" = "DECOHERED" :=
  ⟨applyGate_decohered g,
    traj_mono gates (if s0 = "ONE" then "ONE" else "ZERO") i j (Nat.le_of_lt hij)
      (by simpa [buildStepStates] using hj) (by simpa [buildStepStates] using hi)⟩

theorem decohered_absorbing_witness :
    (1 < 2) ∧ (2 < (buildStepStates "ZERO" [some "NOISE", none]).length) ∧
      ((buildStepStates "ZERO" [some "NOISE", none]).getD 1 "" = "DECOHERED") ∧
      (applyGate "DECOHERED" (some "X") = "DECOHERED" ∧
        (buildStepStates "ZERO" [some "NOISE", none]).getD 2 "" = "DECOHERED") :=
  ⟨by decide, by decide, by decide,
    decohered_absorbing (some "X") "ZERO" [some "NOISE", none] 1 2
      (by decide) (by decide) (by decide)⟩

/-- Claim C3: every trajectory has length `len(gates) + 1`, its element 0 is
the (normalized) initial state, and element `i + 1` is the result of applying
gate `i` to element `i`. -/
theorem trajectory_length (s0 : String) (gates : List (Option String)) :
    (buildStepStates s0 gates).length = gates.length + 1 ∧
      (buildStepStates s0 gates).getD 0 "" = (if s0 = "ONE" then "ONE" else "ZERO") ∧
      ∀ i, i < gates.length →
        (buildStepStates s0 gates).getD (i + 1) "" =
          applyGate ((buildStepStates s0 gates).getD i "") (gates.getD i none) :=
  ⟨buildStepStates_length s0 gates, by simp [buildStepStates],
    fun i hi => traj_step gates (if s0 = "ONE" then "ONE" else "ZERO") i hi⟩

theorem trajectory_length_witness :
    (buildStepStates "PLUS" [some "H"]).length = 1 + 1 ∧
      (buildStepStates "PLUS" [some "H"]).getD 0 "" = "ZERO" ∧
      (buildStepStates "PLUS" [some "H"]).getD 1 "" =
        applyGate ((buildStepStates "PLUS" [some "H"]).getD 0 "")
          ([some "H"].getD 0 none) :=
  ⟨(trajectory_length "PLUS" [some "H"]).1,
    (trajectory_length "PLUS" [some "H"]).2.1,
    (trajectory_length "PLUS" [some "H"]).2.2 0 (by decide)⟩

/-- Claim C5: from seed `ZERO` the sequence `[H, Z, H, absent]` yields the
trajectory `[ZERO, PLUS, MINUS, ONE, ONE]`, and measuring `ONE` is `red`
deterministically, with the randomness source untouched. -/
theorem scenario_A :
    buildStepStates "ZERO" [some "H", some "Z", some "H", none] =
      ["ZERO", "PLUS", "MINUS", "ONE", "ONE"] ∧
      ∀ rs : RandState, measureState "ONE" rs = ("red", rs) :=
  ⟨by decide, fun rs => rfl⟩

/-- A concrete randomness source (all draws are `0`) used to instantiate
universally quantified statements at a specific input. -/
def zeroRand : RandState := ⟨fun _ => 0, 0⟩

/-- Claim C4: `ZERO`/`ONE`/`DECOHERED` measure to `blue`/`red`/`yellow`
without touching the randomness source, any string outside the five states
measures to `blue` without touching it, and on `PLUS`/`MINUS` the outcome is
decided by the single draw consumed (the cursor advances by exactly one). -/
theorem measurement_contract (rs : RandState) (s t : String)
    (hs : s ∉ ["ZERO", "ONE", "PLUS", "MINUS", "DECOHERED"])
    (ht : t = "PLUS" ∨ t = "MINUS") :
    measureState "ZERO" rs = ("blue", rs) ∧
      measureState "ONE" rs = ("red", rs) ∧
      measureState "DECOHERED" rs = ("yellow", rs) ∧
      measureState s rs = ("blue", rs) ∧
      (measureState t rs).1 = (if rs.stream rs.idx < 1/2 then "blue" else "red") ∧
      (measureState t rs).2 = ⟨rs.stream, rs.idx + 1⟩ := by
  refine ⟨rfl, rfl, rfl, ?_, ?_, ?_⟩
  · obtain ⟨h1, h2, h3, h4, h5⟩ :
        s ≠ "ZERO" ∧ s ≠ "ONE" ∧ s ≠ "PLUS" ∧ s ≠ "MINUS" ∧ s ≠ "DECOHERED" := by
      simpa using hs
    simp [measureState, h1, h2, h3, h4, h5]
  · rcases ht with rfl | rfl <;> rfl
  · rcases ht with rfl | rfl <;> rfl

theorem measurement_contract_witness :
    ("FOO" ∉ ["ZERO", "ONE", "PLUS", "MINUS", "DECOHERED"]) ∧
      ("PLUS" = "PLUS" ∨ "PLUS" = "MINUS") ∧
      (measureState "ZERO" zeroRand = ("blue", zeroRand) ∧
        measureState "ONE" zeroRand = ("red", zeroRand) ∧
        measureState "DECOHERED" zeroRand = ("yellow", zeroRand) ∧
        measureState "FOO" zeroRand = ("blue", zeroRand) ∧
        (measureState "PLUS" zeroRand).1 =
          (if zeroRand.stream zeroRand.idx < 1/2 then "blue" else "red") ∧
        (measureState "PLUS" zeroRand).2 = ⟨zeroRand.stream, zeroRand.idx + 1⟩) :=
  ⟨by decide, Or.inl rfl,
    measurement_contract zeroRand "FOO" "PLUS" (by decide) (Or.inl rfl)⟩

/-- Claim C8: a present but unknown gate leaves every non-`DECOHERED` state
unchanged, an absent gate leaves the state unchanged, and `buildStepStates`
seeds the trajectory with `ZERO` whenever the initial state is not exactly
`ONE`. -/
theorem defensive_default (s g s0 : String) (gates : List (Option String))
    (hs : s ≠ "DECOHERED") (hg : g ∉ ["X", "H", "Z", "NOISE"]) (h0 : s0 ≠ "ONE") :
    applyGate s (some g) = s ∧ applyGate s none = s ∧
      (buildStepStates s0 gates).getD 0 "" = "ZERO" := by
  obtain ⟨h1, h2, h3, h4⟩ : g ≠ "X" ∧ g ≠ "H" ∧ g ≠ "Z" ∧ g ≠ "NOISE" := by
    simpa using hg
  have e1 : (g == "X") = false := by simp [h1]
  have e2 : (g == "H") = false := by simp [h2]
  have e3 : (g == "Z") = false := by simp [h3]
  have e4 : (g == "NOISE") = false := by simp [h4]
  refine ⟨?_, rfl, ?_⟩
  · simp [applyGate, gateTable, hs, List.lookup, e1, e2, e3, e4]
  · simp [buildStepStates, h0]

theorem defensive_default_witness :
    ("PLUS" ≠ "DECOHERED") ∧ ("Q" ∉ ["X", "H", "Z", "NOISE"]) ∧
      ("MINUS" ≠ "ONE") ∧
      (applyGate "PLUS" (some "Q") = "PLUS" ∧ applyGate "PLUS" none = "PLUS" ∧
        (buildStepStates "MINUS" [none]).getD 0 "" = "ZERO") :=
  ⟨by decide, by decide, by decide,
    defensive_default "PLUS" "Q" "MINUS" [none] (by decide) (by decide) (by decide)⟩

theorem applyGateApp_eq (s : String) (g : Option String) :
    applyGateApp s g = applyGate s g := by
  cases g <;> rfl

theorem stepStatesFromApp_eq (gates : List (Option String)) :
    ∀ s, stepStatesFromApp s gates = stepStatesFrom s gates := by
  induction gates with
  | nil => intro s; rfl
  | cons g gs ih =>
    intro s
    simp [stepStatesFromApp, stepStatesFrom, applyGateApp_eq, ih]

theorem finalStateApp_getLastD (gates : List (Option String)) :
    ∀ s, finalStateApp s gates = (s :: stepStatesFrom s gates).getLastD "" := by
  induction gates with
  | nil => intro s; rfl
  | cons g gs ih =>
    intro s
    simp only [finalStateApp, applyGateApp_eq]
    rw [ih (applyGate s g)]
    rfl

theorem getD_length_eq_getLastD (gates : List (Option String)) :
    ∀ s, (s :: stepStatesFrom s gates).getD gates.length "" =
      (s :: stepStatesFrom s gates).getLastD "" := by
  induction gates with
  | nil => intro s; rfl
  | cons g gs ih =>
    intro s
    simp only [stepStatesFrom, List.length_cons, List.getD_cons_succ]
    exact ih (applyGate s g)

/-- Claim C7: the App-level trajectory builder equals the core one with the
core's last element appended once more; hence its length is `len(gates) + 2`
and its last two elements coincide. -/
theorem app_trajectory_refines (s0 : String) (gates : List (Option String)) :
    buildStepStatesApp s0 gates =
      buildStepStates s0 gates ++ [(buildStepStates s0 gates).getLastD ""] ∧
      (buildStepStatesApp s0 gates).length = gates.length + 2 ∧
      (buildStepStatesApp s0 gates).getD gates.length "" =
        (buildStepStatesApp s0 gates).getD (gates.length + 1) "" := by
  have h1 : buildStepStatesApp s0 gates =
      buildStepStates s0 gates ++ [(buildStepStates s0 gates).getLastD ""] := by
    simp only [buildStepStatesApp, buildStepStates]
    rw [stepStatesFromApp_eq, finalStateApp_getLastD]
  have hlen : (buildStepStates s0 gates).length = gates.length + 1 :=
    buildStepStates_length s0 gates
  refine ⟨h1, ?_, ?_⟩
  · rw [h1]; simp [hlen]
  · rw [h1, List.getD_append _ _ _ _ (by omega),
      List.getD_append_right _ _ _ _ (by omega), hlen]
    simp only [Nat.sub_self, List.getD_cons_zero]
    exact getD_length_eq_getLastD gates (if s0 = "ONE" then "ONE" else "ZERO")

theorem filterMap_id_replicate (k : Nat) :
    (List.replicate k (none : Option String)).filterMap id = [] := by
  induction k with
  | zero => rfl
  | succ n ih => simp [List.replicate_succ, ih]

theorem parseLoop_head_step (g : String) (hg : g ∈ ["X", "H", "Z", "NOISE"])
    (N : Nat) (acc : List (Option String)) (hacc : acc.length < N)
    (cs : List Char) :
    parseLoop N acc ((if g = "NOISE" then "N" else g).toList.map Char.toUpper ++ cs) =
      parseLoop N (acc ++ [some g]) cs := by
  fin_cases hg <;> simp [parseLoop, validGates, hacc]

theorem parseLoop_format (gs : List String) :
    ∀ (acc : List (Option String)) (N : Nat),
      (∀ g ∈ gs, g ∈ ["X", "H", "Z", "NOISE"]) →
      acc.length + gs.length ≤ N →
      parseLoop N acc ((gatesToChars (gs.map some)).map Char.toUpper) =
        acc ++ gs.map some := by
  induction gs with
  | nil =>
    intro acc N _ _
    simp [gatesToChars, parseLoop]
  | cons g gs' ih =>
    intro acc N hvalid hlen
    have hg : g ∈ ["X", "H", "Z", "NOISE"] := hvalid g (by simp)
    simp only [List.length_cons] at hlen
    have hacc : acc.length < N := by omega
    have hne : g ≠ "" := by fin_cases hg <;> decide
    have hchars : gatesToChars ((g :: gs').map some) =
        (if g = "NOISE" then "N" else g).toList ++ gatesToChars (gs'.map some) := by
      simp [gatesToChars, hne]
    rw [hchars, List.map_append, parseLoop_head_step g hg N acc hacc,
      ih (acc ++ [some g]) N (fun x hx => hvalid x (by simp [hx])) (by simp; omega)]
    simp

/-- Claim C6: `format ∘ parse` reproduces `"XHZN"`, parsing `"xHz!!Q"` drops
the invalid characters case-insensitively, and `parse ∘ format` at the
original length reproduces any sequence whose absent slots all trail its
populated slots. -/
theorem parse_format_roundtrip :
    gatesToString (parseGateString "XHZN" 4) = "XHZN" ∧
      parseGateString "xHz!!Q" 4 = [some "X", some "H", some "Z", none] ∧
      ∀ (seq : List (Option String)) (gs : List String) (k : Nat),
        seq = gs.map some ++ List.replicate k none →
        (∀ g ∈ gs, g ∈ ["X", "H", "Z", "NOISE"]) →
        parseGateString (gatesToString seq) seq.length = seq := by
  refine ⟨by decide, by decide, ?_⟩
  rintro seq gs k rfl hvalid
  have hto : (gatesToString (gs.map some ++ List.replicate k none)).toList =
      gatesToChars (gs.map some) := by
    show gatesToChars _ = _
    simp [gatesToChars, List.filterMap_append, filterMap_id_replicate]
  have hparse : parseLoop ((gs.map some ++ List.replicate k none).length) []
      ((gatesToString (gs.map some ++ List.replicate k none)).toList.map Char.toUpper) =
      gs.map some := by
    rw [hto]
    simpa using parseLoop_format gs [] _ hvalid (by simp)
  simp only [parseGateString, hparse]
  simp

theorem parse_format_roundtrip_witness :
    gatesToString (parseGateString "XHZN" 4) = "XHZN" ∧
      parseGateString (gatesToString [some "X", some "NOISE", none])
        ([some "X", some "NOISE", none] : List (Option String)).length =
        [some "X", some "NOISE", none] :=
  ⟨parse_format_roundtrip.1,
    parse_format_roundtrip.2.2 [some "X", some "NOISE", none] ["X", "NOISE"] 1
      rfl (by decide)⟩

theorem generateRandomCircuit_length (numGates : Nat) :
    ∀ rs, ((generateRandomCircuit numGates rs).1).length = numGates := by
  induction numGates with
  | zero => intro rs; rfl
  | succ n ih => intro rs; simp [generateRandomCircuit, draw, ih]

theorem buildColumnData_gates (gates : List (Option String)) (rs : RandState) :
    ((buildColumnData gates rs).1).gates = gates := rfl

theorem fixtureRow_shape (cols numGates : Nat) :
    ∀ rs, ((fixtureRow cols numGates rs).1).length = cols ∧
      (((fixtureRow cols numGates rs).1).all fun cell =>
        cell.gates.length == numGates) = true := by
  induction cols with
  | zero => intro rs; exact ⟨rfl, rfl⟩
  | succ c ih =>
    intro rs
    have hstep : (fixtureRow (c + 1) numGates rs).1 =
        (buildColumnData (generateRandomCircuit numGates rs).1
          (generateRandomCircuit numGates rs).2).1 ::
        (fixtureRow c numGates
          (buildColumnData (generateRandomCircuit numGates rs).1
            (generateRandomCircuit numGates rs).2).2).1 := rfl
    rw [hstep]
    obtain ⟨ihl, iha⟩ := ih ((buildColumnData (generateRandomCircuit numGates rs).1
      (generateRandomCircuit numGates rs).2).2)
    refine ⟨by simp [ihl], ?_⟩
    rw [List.all_cons, iha, Bool.and_true, buildColumnData_gates,
      generateRandomCircuit_length]
    exact beq_self_eq_true numGates

theorem fixtureRows_shape (rows size numGates : Nat) :
    ∀ rs, ((fixtureRows rows size numGates rs).1).length = rows ∧
      (((fixtureRows rows size numGates rs).1).all fun row =>
        row.length == size && row.all fun cell =>
          cell.gates.length == numGates) = true := by
  induction rows with
  | zero => intro rs; exact ⟨rfl, rfl⟩
  | succ r ih =>
    intro rs
    have hstep : (fixtureRows (r + 1) size numGates rs).1 =
        (fixtureRow size numGates rs).1 ::
        (fixtureRows r size numGates (fixtureRow size numGates rs).2).1 := rfl
    rw [hstep]
    obtain ⟨ihl, iha⟩ := ih ((fixtureRow size numGates rs).2)
    obtain ⟨hrl, hra⟩ := fixtureRow_shape size numGates rs
    refine ⟨by simp [ihl], ?_⟩
    rw [List.all_cons, iha, Bool.and_true, hra, Bool.and_true, hrl]
    exact beq_self_eq_true size

/-- Claim C9 counterexample: called as `generateFixtureGrid(rows, cols, …)`
with `rows = 1` and `cols = 2`, the first row has one cell, not the two
columns the claim demands — the grid the code builds is always square in its
first argument, and the second argument is the circuit length. -/
theorem fixture_grid_not_rows_cols :
    ((generateFixtureGrid 1 2 zeroRand).1.getD 0 []).length = 1 ∧ (1 : Nat) ≠ 2 :=
  ⟨(fixtureRow_shape 1 2 zeroRand).1, by decide⟩

/-- Claim C9 (amended): `generateFixtureGrid(size, numGates)` returns a
square grid with exactly `size` rows and `size` columns, each cell a
column-data record whose `gates` field is a sequence of length `numGates`. -/
theorem fixture_grid_shape (size numGates : Nat) (rs : RandState) :
    (generateFixtureGrid size numGates rs).1.length = size ∧
      ((generateFixtureGrid size numGates rs).1.all fun row =>
        row.length == size && row.all fun cell =>
          cell.gates.length == numGates) = true :=
  fixtureRows_shape size size numGates rs

theorem avail_getD (n : Nat) :
    (availableGates.get? n).getD none = some "X" ∨
      (availableGates.get? n).getD none = some "H" ∨
      (availableGates.get? n).getD none = some "Z" ∨
      (availableGates.get? n).getD none = none := by
  match n with
  | 0 => exact Or.inl rfl
  | 1 => exact Or.inr (Or.inl rfl)
  | 2 => exact Or.inr (Or.inr (Or.inl rfl))
  | 3 => exact Or.inr (Or.inr (Or.inr rfl))
  | 4 => exact Or.inr (Or.inr (Or.inr rfl))
  | n + 5 =>
    refine Or.inr (Or.inr (Or.inr ?_))
    rw [List.get?_eq_none.2 (by simp [availableGates])]
    rfl

theorem pickGate_mem (q : ℚ) :
    pickGate q = some "X" ∨ pickGate q = some "H" ∨ pickGate q = some "Z" ∨
      pickGate q = none := by
  simp only [pickGate]
  by_cases h : (⌊q * 5⌋ : ℤ) < 0
  · simp [h]
  · simpa [h] using avail_getD (⌊q * 5⌋).toNat

theorem generateRandomCircuit_alphabet (numGates : Nat) :
    ∀ rs, (((generateRandomCircuit numGates rs).1).all fun g =>
      (g == some "X" || g == some "H" || g == some "Z" || g == none)) = true := by
  induction numGates with
  | zero => intro rs; rfl
  | succ n ih =>
    intro rs
    have hstep : (generateRandomCircuit (n + 1) rs).1 =
        pickGate (rs.stream rs.idx) ::
        (generateRandomCircuit n ⟨rs.stream, rs.idx + 1⟩).1 := rfl
    rw [hstep, List.all_cons, ih, Bool.and_true]
    rcases pickGate_mem (rs.stream rs.idx) with h | h | h | h <;> rw [h] <;> rfl

/-- Claim C10: every slot of a generated circuit is `X`, `H`, `Z` or absent —
never `NOISE`, although `N` is in the parse alphabet — and the selection pool
has five entries of which two are absent slots. -/
theorem random_circuit_never_noise (numGates : Nat) (rs : RandState) :
    (((generateRandomCircuit numGates rs).1).all fun g =>
      (g == some "X" || g == some "H" || g == some "Z" || g == none)) = true ∧
      (((generateRandomCircuit numGates rs).1).all fun g =>
        g != some "NOISE") = true ∧
      availableGates.count none = 2 ∧ availableGates.length = 5 ∧
      validGates 'N' = some "NOISE" := by
  have h1 := generateRandomCircuit_alphabet numGates rs
  refine ⟨h1, ?_, by decide, by decide, by decide⟩
  rw [List.all_eq_true] at h1 ⊢
  intro g hg
  have := h1 g hg
  simp only [Bool.or_eq_true, beq_iff_eq] at this
  rcases this with ((rfl | rfl) | rfl) | rfl <;> rfl

end QuantumDesign
